import Mathlib

/-!
Verification of the ext4 shim (src/ext4_rs_shim.rs) of the Byte-OS fs crate.

The development shallowly embeds the shim:

* the sector device (`devices::get_blk_device(..).read_blocks/write_blocks`)
  is modelled as a total map from absolute byte address to byte, with
  `read_blocks`/`write_blocks` acting on whole 512-byte sectors;
* `Ext4Disk::read_offset` and `Ext4Disk::write_offset` are translated
  loop-for-loop (the Rust `for` loops become folds over `List.range`, the
  `copy_from_slice` calls become `copySlice`);
* the flag/error/entry-type translation of `Ext4FileWrapper` is translated
  arm-for-arm; the external collaborators (the `vfscore` flag/error/file-type
  vocabulary and the `ext4_rs` engine) are modelled as explicit data.
-/

/-- Bytes are modelled as natural numbers (the shim only moves them around). -/
abbrev Byte := Nat

/-- The sector device: a total map from absolute byte address to stored byte. -/
abbrev Disk := Nat → Byte

/-- Logical block size of the engine, src/ext4_rs_shim.rs line 19. -/
def BLOCK_SIZE : Nat := 4096

/-- Sector read: the device fills a 512-byte buffer from sector `block_id`
(`device.read_blocks(current_block_id, &mut data)`). -/
def read_blocks (d : Disk) (block_id : Nat) : List Byte :=
  (List.range 512).map fun j => d (512 * block_id + j)

/-- Sector write: the device stores a 512-byte buffer at sector `block_id`
(`device.write_blocks(current_block_id, &data)`). -/
def write_blocks (d : Disk) (block_id : Nat) (data : List Byte) : Disk :=
  fun a =>
    if 512 * block_id ≤ a ∧ a < 512 * block_id + 512 then data.getD (a - 512 * block_id) 0
    else d a

/-- Rust slice assignment
`dst[dstStart..dstStart+len].copy_from_slice(&src[srcStart..srcStart+len])`,
as a pointwise rebuild of the destination list. -/
def copySlice (dst : List Byte) (dstStart : Nat) (src : List Byte) (srcStart len : Nat) :
    List Byte :=
  (List.range dst.length).map fun k =>
    if dstStart ≤ k ∧ k < dstStart + len then src.getD (srcStart + (k - dstStart)) 0
    else dst.getD k 0

/-- One iteration of the loop of `Ext4Disk::read_offset`
(src/ext4_rs_shim.rs lines 43-62).  The state is
(`buf`, `total_bytes_read`, `offset_in_block`). -/
def read_step (d : Disk) (start_block_id : Nat) (st : List Byte × Nat × Nat) (i : Nat) :
    List Byte × Nat × Nat :=
  let data := read_blocks d (start_block_id + i)
  let bytes_to_copy := if st.2.1 = 0 then 512 - st.2.2 else 512
  (copySlice st.1 st.2.1 data st.2.2 bytes_to_copy, st.2.1 + bytes_to_copy, 0)

/-- `Ext4Disk::read_offset` (src/ext4_rs_shim.rs lines 34-65): the buffer starts
as `vec![0; BLOCK_SIZE]` and the loop runs for `i in 0..(BLOCK_SIZE / 512)`
with initial state `total_bytes_read = 0`, `offset_in_block = offset % 512`. -/
def read_offset (d : Disk) (offset : Nat) : List Byte :=
  ((List.range (BLOCK_SIZE / 512)).foldl (read_step d (offset / 512))
    (List.replicate BLOCK_SIZE 0, 0, offset % 512)).1

/-- One iteration of the loop of `Ext4Disk::write_offset`
(src/ext4_rs_shim.rs lines 79-103).  The state is
(device, `total_bytes_written`, `offset_in_block`).  `data` starts as
`[0u8; 512]` and is first filled from the device only when the whole buffer
is shorter than 512 bytes (`if bytes_to_write < 512`). -/
def write_step (buf : List Byte) (start_block_id : Nat) (st : Disk × Nat × Nat) (i : Nat) :
    Disk × Nat × Nat :=
  let data0 : List Byte := List.replicate 512 0
  let data1 := if buf.length < 512 then read_blocks st.1 (start_block_id + i) else data0
  let buf_end := if st.2.1 + 512 > buf.length then buf.length else st.2.1 + 512
  let bytes_to_copy := buf_end - st.2.1
  let data2 := copySlice data1 st.2.2 buf st.2.1 bytes_to_copy
  (write_blocks st.1 (start_block_id + i) data2, st.2.1 + bytes_to_copy, 0)

/-- `Ext4Disk::write_offset` (src/ext4_rs_shim.rs lines 67-104): the
`assert_eq!(offset_in_block, 0)` panic is modelled as `none`; otherwise the
loop runs for `i in 0..((buf.len() + 511) / 512)` and the updated device is
returned. -/
def write_offset (d : Disk) (offset : Nat) (buf : List Byte) : Option Disk :=
  if offset % 512 = 0 then
    some (((List.range ((buf.length + 511) / 512)).foldl (write_step buf (offset / 512))
      (d, 0, offset % 512)).1)
  else none

/-- Modelled from the spec: the crate `vfscore` (an external collaborator, not
under src/) provides the `OpenFlags` bitset whose recognized values are
read-only, write-only, read-write, create, truncate and append (spec section 6).
The numeric encodings follow the standard Linux open(2) convention used by
Byte-OS.  `O_RDONLY` is the empty bitset. -/
def O_RDONLY : Nat := 0

/-- Modelled from the spec: `vfscore::OpenFlags::O_WRONLY` (see `O_RDONLY`). -/
def O_WRONLY : Nat := 1

/-- Modelled from the spec: `vfscore::OpenFlags::O_RDWR` (see `O_RDONLY`). -/
def O_RDWR : Nat := 2

/-- Modelled from the spec: `vfscore::OpenFlags::O_CREAT` (see `O_RDONLY`). -/
def O_CREAT : Nat := 64

/-- Modelled from the spec: `vfscore::OpenFlags::O_TRUNC` (see `O_RDONLY`). -/
def O_TRUNC : Nat := 512

/-- Modelled from the spec: `vfscore::OpenFlags::O_APPEND` (see `O_RDONLY`). -/
def O_APPEND : Nat := 1024

/-- The create flag of `Ext4FileWrapper::open`
(src/ext4_rs_shim.rs lines 159-163): `_flags.contains(OpenFlags::O_CREAT)`. -/
def createFlag (flags : Nat) : Bool := flags &&& O_CREAT == O_CREAT

/-- The `match _flags` of `Ext4FileWrapper::open` (src/ext4_rs_shim.rs lines
166-174).  In a Rust `match`, `A | B | C` in pattern position is an or-pattern
over the three constants, so each arm fires exactly when the scrutinee equals
one of the listed constants; the final `_ => unreachable!()` is modelled as
`none`. -/
def parseFlags (flags : Nat) : Option String :=
  if flags = O_RDONLY then some "r"
  else if flags = O_WRONLY ∨ flags = O_CREAT ∨ flags = O_TRUNC then some "w"
  else if flags = O_WRONLY ∨ flags = O_CREAT ∨ flags = O_APPEND then some "a"
  else if flags = O_RDWR then some "r+"
  else if flags = O_RDWR ∨ flags = O_CREAT ∨ flags = O_TRUNC then some "w+"
  else if flags = O_RDWR ∨ flags = O_CREAT ∨ flags = O_APPEND then some "a+"
  else none

/-- Modelled from the spec: the engine crate `ext4_rs` (external collaborator)
provides the error enumeration `Errnum`.  The shim distinguishes `ENOENT`,
`EALLOCFIAL` and `ELINKFIAL`; the other constructors stand for the remaining
engine error codes hit by the catch-all arm. -/
inductive Errnum
  | ENOENT
  | EALLOCFIAL
  | ELINKFIAL
  | EPERM
  | EIO
  | ENOSPC
  | EINVAL
deriving DecidableEq, Repr

/-- Modelled from the spec: the `vfscore` error values surfaced by the shim
(spec section 6): file-not-found, unexpected-end-of-data (the generic
fallback) and not-supported. -/
inductive VfsError
  | FileNotFound
  | UnexpectedEof
  | NotSupported
deriving DecidableEq, Repr

/-- Modelled from the spec: the `vfscore` file-type enumeration as used by the
shim (`FileType::File`, `FileType::Directory`, `FileType::LINK`). -/
inductive FileType
  | File
  | Directory
  | LINK
deriving DecidableEq, Repr

/-- The engine-side per-file state `ext4_rs::Ext4File`; the shim reads its
`inode` field (src/ext4_rs_shim.rs line 240). -/
structure Ext4File where
  inode : Nat
deriving DecidableEq, Repr

/-- The engine `ext4_rs::Ext4` as an oracle: `dirMk` is `ext4_dir_mk(path)`
and `openFile path mode create` is `ext4_open(&mut file, path, mode, create)`,
returning the mutated `Ext4File` together with the call's result. -/
structure Engine where
  dirMk : String → Except Errnum Unit
  openFile : String → String → Bool → Ext4File × Except Errnum Unit

/-- `Ext4FileWrapper::open` (src/ext4_rs_shim.rs lines 156-194): derive the
create flag and the mode descriptor, call the engine, and map an engine error
through the `match e.error()` of lines 181-187.  The `unreachable!()` of the
flag match is modelled as the outer `none`. -/
def shimOpen (eng : Engine) (path : String) (flags : Nat) : Option (Except VfsError Ext4File) :=
  match parseFlags flags with
  | none => none
  | some parse_flags =>
    let r := eng.openFile path parse_flags (createFlag flags)
    match r.2 with
    | Except.error e =>
      some (Except.error (match e with
        | Errnum.ENOENT => VfsError.FileNotFound
        | Errnum.EALLOCFIAL => VfsError.UnexpectedEof
        | Errnum.ELINKFIAL => VfsError.UnexpectedEof
        | _ => VfsError.UnexpectedEof))
    | Except.ok _ => some (Except.ok r.1)

/-- `Ext4FileWrapper::mkdir` (src/ext4_rs_shim.rs lines 196-207): call
`ext4_dir_mk(path)` (result bound to `r` and discarded), then
`ext4_open(&mut ext4_file, path, "w", false)` (result again discarded), and
return `Ok` wrapping the file session unconditionally. -/
def shimMkdir (eng : Engine) (path : String) : Except VfsError Ext4File :=
  let _r1 := eng.dirMk path
  let r := eng.openFile path "w" false
  Except.ok r.1

/-- `Ext4FileWrapper::touch` (src/ext4_rs_shim.rs lines 229-236):
`ext4_open(&mut ext4_file, path, "w+", true)` with the result discarded, then
`Ok` wrapping the file session unconditionally. -/
def shimTouch (eng : Engine) (path : String) : Except VfsError Ext4File :=
  let r := eng.openFile path "w+" true
  Except.ok r.1

/-- Modelled from the spec: the on-disk directory-entry type bytes of the
engine crate `ext4_rs` (`DirEntryType`), with the standard ext4 values. -/
def EXT4_DE_REG_FILE : Nat := 1

/-- Modelled from the spec: `ext4_rs::DirEntryType::EXT4_DE_DIR`. -/
def EXT4_DE_DIR : Nat := 2

/-- Modelled from the spec: `ext4_rs::DirEntryType::EXT4_DE_CHRDEV`. -/
def EXT4_DE_CHRDEV : Nat := 3

/-- Modelled from the spec: `ext4_rs::DirEntryType::EXT4_DE_BLKDEV`. -/
def EXT4_DE_BLKDEV : Nat := 4

/-- Modelled from the spec: `ext4_rs::DirEntryType::EXT4_DE_SOCK`. -/
def EXT4_DE_SOCK : Nat := 6

/-- Modelled from the spec: `ext4_rs::DirEntryType::EXT4_DE_SYMLINK`. -/
def EXT4_DE_SYMLINK : Nat := 7

/-- The function `map_ext4_type` (src/ext4_rs_shim.rs lines 298-307): a match
on the type byte with exactly six constant arms and no default arm; a value
matching no arm is modelled as `none` (the Rust match has no arm for it). -/
def map_ext4_type (value : Nat) : Option FileType :=
  if value = EXT4_DE_REG_FILE then some FileType.File
  else if value = EXT4_DE_DIR then some FileType.Directory
  else if value = EXT4_DE_CHRDEV then some FileType.File
  else if value = EXT4_DE_BLKDEV then some FileType.File
  else if value = EXT4_DE_SOCK then some FileType.File
  else if value = EXT4_DE_SYMLINK then some FileType.LINK
  else none

/-- A raw engine directory entry `ext4_rs::Ext4DirEntry` as the shim consumes
it: `get_name()`, `inode`, and `inner.file_type` (src/ext4_rs_shim.rs
lines 246-253). -/
structure Ext4DirEntry where
  name : String
  inode : Nat
  file_type : Nat
deriving DecidableEq, Repr

/-- The `vfscore::DirEntry` triple built by `read_dir`
(src/ext4_rs_shim.rs lines 249-253). -/
structure DirEntry where
  name : String
  inode : Nat
  file_type : FileType
deriving DecidableEq, Repr

/-- Modelled from the spec: `Ext4FileWrapper::read_dir` (src/ext4_rs_shim.rs
lines 238-258).  The source's loop body references an undefined variable
`ile_type` and pushes the built `DirEntry` into the iterated engine vector `v`
(returning `v`), which does not compile; the spec (sections 4.4 and 9) gives
the intended aggregation: map each raw entry through `map_ext4_type` and
return the mapped entries in the engine's order.  An entry whose type byte has
no arm in `map_ext4_type` faults, modelled as `none`. -/
def shimReadDir (raw : List Ext4DirEntry) : Option (List DirEntry) :=
  raw.mapM fun i => (map_ext4_type i.file_type).map fun ft => DirEntry.mk i.name i.inode ft

/-- The length of a `copySlice` result is the destination's length. -/
theorem copySlice_length (dst : List Byte) (a : Nat) (src : List Byte) (b n : Nat) :
    (copySlice dst a src b n).length = dst.length := by
  simp [copySlice]

/-- Pointwise description of `copySlice` inside the destination. -/
theorem copySlice_getD (dst : List Byte) (a : Nat) (src : List Byte) (b n k : Nat)
    (hk : k < dst.length) :
    (copySlice dst a src b n).getD k 0 =
      if a ≤ k ∧ k < a + n then src.getD (b + (k - a)) 0 else dst.getD k 0 := by
  simp [copySlice, List.getD_eq_getElem?_getD, List.getElem?_map, List.getElem?_range, hk]

/-- A sector read returns the device bytes of that sector. -/
theorem read_blocks_getD (d : Disk) (b j : Nat) (hj : j < 512) :
    (read_blocks d b).getD j 0 = d (512 * b + j) := by
  simp [read_blocks, List.getD_eq_getElem?_getD, List.getElem?_map, List.getElem?_range, hj]

/-- A sector read is 512 bytes long. -/
theorem read_blocks_length (d : Disk) (b : Nat) : (read_blocks d b).length = 512 := by
  simp [read_blocks]

/-- The zero-filled buffer reads back as zero everywhere. -/
theorem replicate_getD (n k : Nat) : (List.replicate n (0 : Byte)).getD k 0 = 0 := by
  rw [List.getD_eq_getElem?_getD, List.getElem?_replicate]
  split <;> rfl


/-- Unfolding equation for one read-loop iteration. -/
theorem read_step_eq (d : Disk) (b : Nat) (st : List Byte × Nat × Nat) (i : Nat) :
    read_step d b st i =
      (copySlice st.1 st.2.1 (read_blocks d (b + i)) st.2.2
         (if st.2.1 = 0 then 512 - st.2.2 else 512),
       st.2.1 + (if st.2.1 = 0 then 512 - st.2.2 else 512), 0) := rfl

/-- Invariant of the read loop: after `m` iterations (1 ≤ m ≤ 8) the running
total is `512 * m - s`, the intra-sector offset has been reset to 0, the
buffer still has 4096 bytes, and its first `512 * m - s` bytes are the device
bytes from absolute address `512 * b + s` on while the rest is still zero. -/
theorem read_loop_invariant (d : Disk) (b s : Nat) (hs : s < 512) :
    ∀ m, 1 ≤ m → m ≤ 8 →
      ((List.range m).foldl (read_step d b) (List.replicate 4096 0, 0, s)).2.1 = 512 * m - s ∧
      ((List.range m).foldl (read_step d b) (List.replicate 4096 0, 0, s)).2.2 = 0 ∧
      ((List.range m).foldl (read_step d b) (List.replicate 4096 0, 0, s)).1.length = 4096 ∧
      ∀ k, k < 4096 →
        ((List.range m).foldl (read_step d b) (List.replicate 4096 0, 0, s)).1.getD k 0 =
          if k < 512 * m - s then d (512 * b + s + k) else 0 := by
  intro m
  induction m with
  | zero => intro h _; exact absurd h (by norm_num)
  | succ m ih =>
    intro _ hm8
    rw [List.range_succ, List.foldl_append, List.foldl_cons, List.foldl_nil]
    rcases Nat.eq_zero_or_pos m with hm0 | hm1
    · subst hm0
      rw [List.range_zero, List.foldl_nil, read_step_eq]
      dsimp only
      rw [if_pos rfl]
      refine ⟨by omega, rfl, by rw [copySlice_length, List.length_replicate], ?_⟩
      intro k hk
      rw [copySlice_getD _ _ _ _ _ k (by rw [List.length_replicate]; exact hk), replicate_getD]
      split_ifs with ha hb hc
      · rw [read_blocks_getD _ _ _ (by omega)]
        congr 1
        omega
      · omega
      · omega
      · rfl
    · obtain ⟨h1, h2, h3, h4⟩ := ih hm1 (by omega)
      rw [read_step_eq, h1, h2]
      rw [if_neg (by omega)]
      dsimp only
      refine ⟨by omega, rfl, by rw [copySlice_length]; exact h3, ?_⟩
      intro k hk
      rw [copySlice_getD _ _ _ _ _ k (by rw [h3]; exact hk), h4 k hk]
      split_ifs with ha hb hc hd he
      · rw [read_blocks_getD _ _ _ (by omega)]
        congr 1
        omega
      · omega
      · rfl
      · omega
      · omega
      · rfl

/-- Pointwise unfolding of a sector write. -/
theorem write_blocks_apply (d : Disk) (bl : Nat) (data : List Byte) (a : Nat) :
    write_blocks d bl data a =
      if 512 * bl ≤ a ∧ a < 512 * bl + 512 then data.getD (a - 512 * bl) 0 else d a := rfl

/-- Unfolding equation for one write-loop iteration. -/
theorem write_step_eq (buf : List Byte) (b : Nat) (st : Disk × Nat × Nat) (i : Nat) :
    write_step buf b st i =
      (write_blocks st.1 (b + i)
        (copySlice (if buf.length < 512 then read_blocks st.1 (b + i) else List.replicate 512 0)
          st.2.2 buf st.2.1
          ((if st.2.1 + 512 > buf.length then buf.length else st.2.1 + 512) - st.2.1)),
       st.2.1 + ((if st.2.1 + 512 > buf.length then buf.length else st.2.1 + 512) - st.2.1),
       0) := rfl

/-- Invariant of the write loop at a sector-aligned offset: after `m`
iterations the running total is `min (512 * m) buf.length`, and the device
holds the written bytes on `[512 b, 512 b + total)`, the read-modify-write
leftovers (original bytes if the whole buffer is short, zero-fill otherwise)
on the rest of the touched sectors, and its old content elsewhere. -/
theorem write_loop_invariant (d : Disk) (b : Nat) (buf : List Byte) :
    ∀ m, m ≤ (buf.length + 511) / 512 →
      ((List.range m).foldl (write_step buf b) (d, 0, 0)).2.1 = min (512 * m) buf.length ∧
      ((List.range m).foldl (write_step buf b) (d, 0, 0)).2.2 = 0 ∧
      ∀ a, ((List.range m).foldl (write_step buf b) (d, 0, 0)).1 a =
        if 512 * b ≤ a ∧ a < 512 * b + min (512 * m) buf.length then buf.getD (a - 512 * b) 0
        else if 512 * b ≤ a ∧ a < 512 * b + 512 * m then
          (if buf.length < 512 then d a else 0)
        else d a := by
  intro m
  induction m with
  | zero =>
    intro _
    rw [List.range_zero, List.foldl_nil]
    refine ⟨by dsimp only; omega, rfl, ?_⟩
    intro a
    dsimp only
    split_ifs with h1 h2 <;> first | rfl | omega
  | succ m ih =>
    intro hm
    obtain ⟨h1, h2, h3⟩ := ih (by omega)
    have hlt : 512 * m < buf.length := by omega
    have hmin : min (512 * m) buf.length = 512 * m := by omega
    rw [List.range_succ, List.foldl_append, List.foldl_cons, List.foldl_nil, write_step_eq,
      h1, h2, hmin]
    have hE : (if 512 * m + 512 > buf.length then buf.length else 512 * m + 512) =
        min (512 * (m + 1)) buf.length := by
      split_ifs <;> omega
    rw [hE]
    refine ⟨by dsimp only; omega, rfl, ?_⟩
    intro a
    dsimp only
    rw [write_blocks_apply]
    by_cases hsec : 512 * (b + m) ≤ a ∧ a < 512 * (b + m) + 512
    · rw [if_pos hsec]
      by_cases hn : buf.length < 512
      · have hm0 : m = 0 := by omega
        subst hm0
        rw [List.range_zero, List.foldl_nil]
        dsimp only
        rw [if_pos hn]
        rw [copySlice_getD _ _ _ _ _ _ (by rw [read_blocks_length]; omega)]
        have hminn : min (512 * (0 + 1)) buf.length = buf.length := by omega
        rw [hminn]
        split_ifs <;>
          first
            | omega
            | (rw [read_blocks_getD _ _ _ (by omega)]; congr 1; omega)
            | (congr 1; omega)
      · rw [if_neg hn]
        rw [copySlice_getD _ _ _ _ _ _ (by rw [List.length_replicate]; omega)]
        rw [replicate_getD]
        split_ifs <;>
          first
            | omega
            | rfl
            | (congr 1; omega)
    · rw [if_neg hsec, h3 a]
      split_ifs <;> first | rfl | omega

/-- The buffer returned by `read_offset` always has exactly 4096 bytes. -/
theorem read_offset_length (d : Disk) (offset : Nat) :
    (read_offset d offset).length = 4096 := by
  exact (read_loop_invariant d (offset / 512) (offset % 512)
    (Nat.mod_lt _ (by norm_num)) 8 (by norm_num) (by norm_num)).2.2.1

/-- Pointwise description of `read_offset`: byte `k` is the device byte at
absolute address `offset + k` while `k < 4096 - offset % 512`, and the final
`offset % 512` bytes of the buffer are left at their zero initialisation. -/
theorem read_offset_getD (d : Disk) (offset k : Nat) (hk : k < 4096) :
    (read_offset d offset).getD k 0 =
      if k < 4096 - offset % 512 then d (offset + k) else 0 := by
  have h := (read_loop_invariant d (offset / 512) (offset % 512)
    (Nat.mod_lt _ (by norm_num)) 8 (by norm_num) (by norm_num)).2.2.2 k hk
  have e1 : 512 * (offset / 512) + offset % 512 + k = offset + k := by omega
  have e2 : 512 * 8 - offset % 512 = 4096 - offset % 512 := by omega
  rw [e1, e2] at h
  exact h

/-- Full characterization of `write_offset` at an aligned offset: the written
range holds the buffer, the remainder of the touched sectors holds the old
device bytes when the whole buffer is shorter than one sector and zero
otherwise, and everything else is untouched. -/
theorem write_offset_spec (d : Disk) (offset : Nat) (buf : List Byte)
    (ha : offset % 512 = 0) :
    ∃ dev, write_offset d offset buf = some dev ∧ ∀ a,
      dev a =
        if offset ≤ a ∧ a < offset + buf.length then buf.getD (a - offset) 0
        else if offset ≤ a ∧ a < offset + 512 * ((buf.length + 511) / 512) then
          (if buf.length < 512 then d a else 0)
        else d a := by
  have hb : 512 * (offset / 512) = offset := by omega
  have hmin : min (512 * ((buf.length + 511) / 512)) buf.length = buf.length := by omega
  obtain ⟨h1, h2, h3⟩ :=
    write_loop_invariant d (offset / 512) buf ((buf.length + 511) / 512) le_rfl
  refine ⟨((List.range ((buf.length + 511) / 512)).foldl
      (write_step buf (offset / 512)) (d, 0, 0)).1, ?_, ?_⟩
  · simp [write_offset, ha]
  · intro a
    rw [h3 a, hb, hmin]

/-- C1, counterexample: the claim that every byte `k < 4096` of
`read_offset offset` equals the device byte at `offset + k` fails on the
all-ones device at offset 300 and `k = 4095`, where the returned byte is the
zero initialisation (the loop reads only 8 sectors, yielding
`4096 - offset % 512` device bytes). -/
theorem c1_read_offset_counterexample :
    ¬ (∀ (d : Disk) (offset : Nat), ∀ k, k < 4096 →
        (read_offset d offset).getD k 0 = d (offset + k)) := by
  intro h
  have h1 := h (fun _ => 1) 300 4095 (by norm_num)
  have h2 := read_offset_getD (fun _ => 1) 300 4095 (by norm_num)
  rw [h1] at h2
  norm_num at h2

/-- C1 (amended): `read_offset` returns a buffer of exactly 4096 bytes whose
byte `k` equals the device byte at absolute position `offset + k` for all
`k < 4096 - offset % 512`; the remaining final `offset % 512` bytes are zero
rather than device bytes.  For sector-aligned offsets the whole buffer
matches the device. -/
theorem c1_read_offset_reconstruction (d : Disk) (offset k : Nat) (hk : k < 4096) :
    (read_offset d offset).length = 4096 ∧
    (read_offset d offset).getD k 0 =
      if k < 4096 - offset % 512 then d (offset + k) else 0 :=
  ⟨read_offset_length d offset, read_offset_getD d offset k hk⟩

/-- C1 witness: concrete instance of the amended claim at offset 300 and
byte 100. -/
theorem c1_read_offset_reconstruction_witness :
    100 < 4096 ∧
    ((read_offset (fun a => a + 1) 300).length = 4096 ∧
     (read_offset (fun a => a + 1) 300).getD 100 0 =
       if 100 < 4096 - 300 % 512 then 300 + 100 + 1 else 0) :=
  ⟨by norm_num, c1_read_offset_reconstruction (fun a => a + 1) 300 100 (by norm_num)⟩

/-- C3, counterexample: the claim that all bytes of touched sectors outside
the written range keep their pre-write values fails for a 600-byte write at
offset 0 over the all-ones device: byte 600 (inside the second, partially
covered sector, outside the written range) becomes 0, because the
read-modify-write branch tests the whole buffer length instead of the bytes
remaining for the current sector. -/
theorem c3_write_offset_counterexample :
    ¬ (∀ (d : Disk) (offset : Nat) (buf : List Byte) (dev : Disk),
        offset % 512 = 0 → write_offset d offset buf = some dev →
        ∀ a, offset + buf.length ≤ a →
          a < offset + 512 * ((buf.length + 511) / 512) → dev a = d a) := by
  intro h
  have hlen : (List.replicate 600 (2 : Byte)).length = 600 := by
    rw [List.length_replicate]
  obtain ⟨dev, hw, hc⟩ := write_offset_spec (fun _ => 1) 0 (List.replicate 600 2) rfl
  have hv := h (fun _ => 1) 0 (List.replicate 600 2) dev rfl hw 600 (by omega) (by omega)
  have hz := hc 600
  rw [if_neg (by omega), if_pos (by omega), if_neg (by omega)] at hz
  rw [hv] at hz
  simp at hz

/-- C3 (amended): after a sector-aligned `write_offset`, reading the written
range back yields exactly the written bytes, bytes outside the touched
sectors are unchanged, and the bytes of a partially covered sector beyond
the buffer keep their pre-write values exactly when the whole buffer is
shorter than 512 bytes; in a multi-sector write the uncovered tail bytes of
the final touched sector are zeroed instead. -/
theorem c3_write_offset_frame (d : Disk) (offset : Nat) (buf : List Byte)
    (ha : offset % 512 = 0) :
    ∃ dev, write_offset d offset buf = some dev ∧
      (∀ k, k < buf.length → dev (offset + k) = buf.getD k 0) ∧
      (∀ a, a < offset ∨ offset + 512 * ((buf.length + 511) / 512) ≤ a → dev a = d a) ∧
      (buf.length < 512 → ∀ a, offset + buf.length ≤ a →
        a < offset + 512 * ((buf.length + 511) / 512) → dev a = d a) ∧
      (512 ≤ buf.length → ∀ a, offset + buf.length ≤ a →
        a < offset + 512 * ((buf.length + 511) / 512) → dev a = 0) := by
  obtain ⟨dev, hw, hc⟩ := write_offset_spec d offset buf ha
  have hcl : buf.length ≤ 512 * ((buf.length + 511) / 512) := by omega
  refine ⟨dev, hw, ?_, ?_, ?_, ?_⟩
  · intro k hk
    rw [hc (offset + k), if_pos (by omega)]
    congr 1
    omega
  · intro a hcase
    rw [hc a, if_neg (by omega), if_neg (by omega)]
  · intro hn a h1 h2
    rw [hc a, if_neg (by omega), if_pos (by omega), if_pos hn]
  · intro hn a h1 h2
    rw [hc a, if_neg (by omega), if_pos (by omega), if_neg (by omega)]

/-- C3 witness: concrete instance of the amended claim for a 2-byte write at
offset 0 over the constant-5 device. -/
theorem c3_write_offset_frame_witness :
    (0 : Nat) % 512 = 0 ∧
    (∃ dev, write_offset (fun _ => 5) 0 [1, 2] = some dev ∧
      (∀ k, k < [1, 2].length → dev (0 + k) = [1, 2].getD k 0) ∧
      (∀ a, a < 0 ∨ 0 + 512 * (([1, 2].length + 511) / 512) ≤ a →
        dev a = (fun _ => (5 : Byte)) a) ∧
      ([1, 2].length < 512 → ∀ a, 0 + [1, 2].length ≤ a →
        a < 0 + 512 * (([1, 2].length + 511) / 512) → dev a = (fun _ => (5 : Byte)) a) ∧
      (512 ≤ [1, 2].length → ∀ a, 0 + [1, 2].length ≤ a →
        a < 0 + 512 * (([1, 2].length + 511) / 512) → dev a = 0)) :=
  ⟨rfl, c3_write_offset_frame (fun _ => 5) 0 [1, 2] rfl⟩

/-- C6: sector-aligned read-after-write round-trip.  After
`write_offset offset buf`, byte `k` of the written range read back through
the logical-block read covering it (the block read at
`offset + 4096 * (k / 4096)`, byte index `k % 4096`) is exactly `buf[k]`. -/
theorem c6_write_read_roundtrip (d : Disk) (offset : Nat) (buf : List Byte)
    (ha : offset % 512 = 0) (k : Nat) (hk : k < buf.length) :
    ∃ dev, write_offset d offset buf = some dev ∧
      (read_offset dev (offset + 4096 * (k / 4096))).getD (k % 4096) 0 = buf.getD k 0 := by
  obtain ⟨dev, hw, hc⟩ := write_offset_spec d offset buf ha
  refine ⟨dev, hw, ?_⟩
  rw [read_offset_getD dev (offset + 4096 * (k / 4096)) (k % 4096) (by omega)]
  rw [if_pos (by omega)]
  have e : offset + 4096 * (k / 4096) + k % 4096 = offset + k := by omega
  rw [e, hc (offset + k), if_pos (by omega)]
  congr 1
  omega

/-- C6 witness: concrete instance at offset 512 with a 3-byte buffer,
reading back byte 1. -/
theorem c6_write_read_roundtrip_witness :
    (512 : Nat) % 512 = 0 ∧ 1 < [3, 4, 5].length ∧
    (∃ dev, write_offset (fun _ => 7) 512 [3, 4, 5] = some dev ∧
      (read_offset dev (512 + 4096 * (1 / 4096))).getD (1 % 4096) 0 = [3, 4, 5].getD 1 0) :=
  ⟨rfl, by norm_num, c6_write_read_roundtrip (fun _ => 7) 512 [3, 4, 5] rfl 1 (by norm_num)⟩

/-- C7: a sector-aligned write of a buffer shorter than 512 bytes performs
read-modify-write on the single touched sector, so every byte of that sector
at positions from the buffer length to 511 keeps its pre-write value. -/
theorem c7_write_offset_short_preserves_tail (d : Disk) (offset : Nat) (buf : List Byte)
    (ha : offset % 512 = 0) (hn : buf.length < 512) (j : Nat)
    (hj1 : buf.length ≤ j) (hj2 : j < 512) :
    ∃ dev, write_offset d offset buf = some dev ∧ dev (offset + j) = d (offset + j) := by
  obtain ⟨dev, hw, hc⟩ := write_offset_spec d offset buf ha
  refine ⟨dev, hw, ?_⟩
  rw [hc (offset + j)]
  rcases Nat.eq_zero_or_pos buf.length with h0 | h0
  · rw [if_neg (by omega), if_neg (by omega)]
  · rw [if_neg (by omega), if_pos (by omega), if_pos hn]

/-- C7 witness: concrete instance for a 3-byte write at offset 0 over the
constant-9 device, checking byte 5 of the sector. -/
theorem c7_write_offset_short_preserves_tail_witness :
    (0 : Nat) % 512 = 0 ∧ [1, 2, 3].length < 512 ∧
    (∃ dev, write_offset (fun _ => 9) 0 [1, 2, 3] = some dev ∧ dev (0 + 5) = 9) :=
  ⟨rfl, by norm_num,
    c7_write_offset_short_preserves_tail (fun _ => 9) 0 [1, 2, 3] rfl (by norm_num) 5
      (by norm_num) (by norm_num)⟩

/-- C8: `write_offset` rejects exactly the non-sector-aligned offsets: the
result is the modelled assertion failure `none` if and only if
`offset % 512 ≠ 0`, so a misaligned write is never silently truncated or
rounded, and under the precondition `offset % 512 = 0` the assertion branch
is unreachable (a device state is always returned). -/
theorem c8_write_offset_alignment (d : Disk) (offset : Nat) (buf : List Byte) :
    write_offset d offset buf = none ↔ offset % 512 ≠ 0 := by
  simp only [write_offset]
  split_ifs with h
  · simp [h]
  · simp [h]

/-- C2, behaviour of the shim's flag match at concrete bitsets: because the
Rust `match` arms use `|` as or-patterns over the individual flag constants,
each of the four combined bitsets of the table (write or read-write, plus
create, plus truncate or append) matches no arm and hits `unreachable!()`
(modelled `none`), while the lone bits `O_WRONLY`, `O_CREAT`, `O_TRUNC` and
`O_APPEND` — which the table says must be rejected — are silently accepted as
modes.  Only the read-only and read-write rows behave as the table says.
The create flag itself is derived correctly from the create bit. -/
theorem c2_parse_flags_match_behavior :
    parseFlags O_RDONLY = some "r" ∧
    parseFlags O_RDWR = some "r+" ∧
    parseFlags (O_WRONLY ||| O_CREAT ||| O_TRUNC) = none ∧
    parseFlags (O_WRONLY ||| O_CREAT ||| O_APPEND) = none ∧
    parseFlags (O_RDWR ||| O_CREAT ||| O_TRUNC) = none ∧
    parseFlags (O_RDWR ||| O_CREAT ||| O_APPEND) = none ∧
    parseFlags O_WRONLY = some "w" ∧
    parseFlags O_CREAT = some "w" ∧
    parseFlags O_TRUNC = some "w" ∧
    parseFlags O_APPEND = some "a" ∧
    createFlag (O_WRONLY ||| O_CREAT ||| O_TRUNC) = true ∧
    createFlag O_RDONLY = false ∧
    createFlag O_RDWR = false := by
  decide

/-- C5: when the engine's open fails, `shimOpen` returns the error determined
by the engine error code — `ENOENT` maps to `FileNotFound` and every other
code (including `EALLOCFIAL` and `ELINKFIAL`) maps to the generic
`UnexpectedEof` fallback — and in particular never reports success. -/
theorem c5_open_error_mapping (eng : Engine) (path : String) (flags : Nat)
    (parse_flags : String) (e : Errnum)
    (hpf : parseFlags flags = some parse_flags)
    (he : (eng.openFile path parse_flags (createFlag flags)).2 = Except.error e) :
    shimOpen eng path flags =
      some (Except.error (if e = Errnum.ENOENT then VfsError.FileNotFound
        else VfsError.UnexpectedEof)) := by
  cases e <;> simp [shimOpen, hpf, he]

/-- C5 witness: an engine whose open always fails with `ENOENT` makes
`shimOpen` at the read-only bitset return `FileNotFound`. -/
theorem c5_open_error_mapping_witness :
    parseFlags 0 = some "r" ∧
    ((Engine.mk (fun _ => Except.ok ())
        (fun _ _ _ => (Ext4File.mk 0, Except.error Errnum.ENOENT))).openFile
        "/x" "r" (createFlag 0)).2 = Except.error Errnum.ENOENT ∧
    shimOpen (Engine.mk (fun _ => Except.ok ())
        (fun _ _ _ => (Ext4File.mk 0, Except.error Errnum.ENOENT))) "/x" 0 =
      some (Except.error (if Errnum.ENOENT = Errnum.ENOENT then VfsError.FileNotFound
        else VfsError.UnexpectedEof)) :=
  ⟨rfl, rfl,
    c5_open_error_mapping
      (Engine.mk (fun _ => Except.ok ())
        (fun _ _ _ => (Ext4File.mk 0, Except.error Errnum.ENOENT)))
      "/x" 0 "r" Errnum.ENOENT rfl rfl⟩

/-- C9: `mkdir` and `touch` return a successful node wrapping the engine's
file session unconditionally, for every engine behaviour — the results of the
directory-creation call and of the open call are discarded, so engine
failures in either step are never surfaced, and the returned node wraps the
file session even when its open failed. -/
theorem c9_mkdir_touch_unconditional (eng : Engine) (path : String) :
    shimMkdir eng path = Except.ok (eng.openFile path "w" false).1 ∧
    shimTouch eng path = Except.ok (eng.openFile path "w+" true).1 :=
  ⟨rfl, rfl⟩

/-- C10: `map_ext4_type` is defined (returns a file type) exactly on the six
known on-disk directory-entry type bytes; any other byte matches no arm and
faults (modelled `none`) rather than being mapped to a default type. -/
theorem c10_map_ext4_type_domain (v : Nat) :
    (map_ext4_type v).isSome = true ↔
      (v = EXT4_DE_REG_FILE ∨ v = EXT4_DE_DIR ∨ v = EXT4_DE_CHRDEV ∨
       v = EXT4_DE_BLKDEV ∨ v = EXT4_DE_SOCK ∨ v = EXT4_DE_SYMLINK) := by
  unfold map_ext4_type
  split_ifs with h1 h2 h3 h4 h5 h6 <;> simp_all

/-- C4: the intended directory listing (the source loop does not compile —
see `shimReadDir`) returns one entry per engine child, in the engine's
order, carrying the child's name, inode and mapped type; and the type byte
mapping sends regular files, character devices, block devices and sockets to
the generic file type, directories to the directory type and symbolic links
to the link type. -/
theorem c4_read_dir_mapping (raw : List Ext4DirEntry)
    (h : ∀ e ∈ raw, (map_ext4_type e.file_type).isSome = true) :
    shimReadDir raw =
      some (raw.map fun e =>
        DirEntry.mk e.name e.inode ((map_ext4_type e.file_type).getD FileType.File)) ∧
    map_ext4_type EXT4_DE_REG_FILE = some FileType.File ∧
    map_ext4_type EXT4_DE_DIR = some FileType.Directory ∧
    map_ext4_type EXT4_DE_CHRDEV = some FileType.File ∧
    map_ext4_type EXT4_DE_BLKDEV = some FileType.File ∧
    map_ext4_type EXT4_DE_SOCK = some FileType.File ∧
    map_ext4_type EXT4_DE_SYMLINK = some FileType.LINK := by
  refine ⟨?_, by decide, by decide, by decide, by decide, by decide, by decide⟩
  induction raw with
  | nil => rfl
  | cons x xs ih =>
    have hx := h x (List.mem_cons_self x xs)
    obtain ⟨ft, hft⟩ := Option.isSome_iff_exists.mp hx
    have hxs := ih (fun e he => h e (List.mem_cons_of_mem x he))
    simp only [shimReadDir] at hxs ⊢
    rw [List.mapM_cons, hft, hxs]
    simp [hft]

/-- C4 witness: a two-entry directory (a subdirectory and a regular file) is
listed in order with the mapped types. -/
theorem c4_read_dir_mapping_witness :
    (∀ e ∈ [Ext4DirEntry.mk "a" 5 2, Ext4DirEntry.mk "b" 6 1],
      (map_ext4_type e.file_type).isSome = true) ∧
    (shimReadDir [Ext4DirEntry.mk "a" 5 2, Ext4DirEntry.mk "b" 6 1] =
      some ([Ext4DirEntry.mk "a" 5 2, Ext4DirEntry.mk "b" 6 1].map fun e =>
        DirEntry.mk e.name e.inode ((map_ext4_type e.file_type).getD FileType.File)) ∧
    map_ext4_type EXT4_DE_REG_FILE = some FileType.File ∧
    map_ext4_type EXT4_DE_DIR = some FileType.Directory ∧
    map_ext4_type EXT4_DE_CHRDEV = some FileType.File ∧
    map_ext4_type EXT4_DE_BLKDEV = some FileType.File ∧
    map_ext4_type EXT4_DE_SOCK = some FileType.File ∧
    map_ext4_type EXT4_DE_SYMLINK = some FileType.LINK) :=
  ⟨by decide, c4_read_dir_mapping [Ext4DirEntry.mk "a" 5 2, Ext4DirEntry.mk "b" 6 1] (by decide)⟩
